import Mathlib

/-!
Verification development for the SpacetimeRL matchmaking / match-lifecycle
subsystem.  The Python sources under `rlcompetition/` are shallowly embedded
as executable Lean definitions:

* `hash_password`, `request_game_message`  — `matchmaking/MatchmakingClient.py`
* the matchmaker request loop, port probing, janitor cleanup
  — `matchmaking/MatchmakingServer.py`
* the client adapter (`client_app` step/close handling)
  — `client_network_env.py`

Machine 32-bit words are `Nat` with explicit `% 2^32`; bytes are `Nat` with
explicit `% 256`.  Fallible / blocking code returns `Option` or `Except`.
-/

/-! ## SHA-256 over byte lists

Faithful model of the SHA-256 function that Python's `hashlib.sha256`
computes.  Bytes are `Nat` values `< 256`; words are `Nat` values `< 2^32`
with reductions written explicitly.
-/

def w32 : Nat := 4294967296

/-- Rotate a 32-bit word right by `n`. -/
def rotr32 (x n : Nat) : Nat := ((x >>> n) ||| (x <<< (32 - n))) % w32

/-- Bitwise complement within 32 bits. -/
def not32 (x : Nat) : Nat := Nat.xor x (w32 - 1)

/-- Addition modulo `2^32`. -/
def add32 (a b : Nat) : Nat := (a + b) % w32

def sha256Ch (x y z : Nat) : Nat := Nat.xor (Nat.land x y) (Nat.land (not32 x) z)

def sha256Maj (x y z : Nat) : Nat :=
  Nat.xor (Nat.xor (Nat.land x y) (Nat.land x z)) (Nat.land y z)

def sha256S0 (x : Nat) : Nat := Nat.xor (Nat.xor (rotr32 x 2) (rotr32 x 13)) (rotr32 x 22)

def sha256S1 (x : Nat) : Nat := Nat.xor (Nat.xor (rotr32 x 6) (rotr32 x 11)) (rotr32 x 25)

def sha256s0 (x : Nat) : Nat := Nat.xor (Nat.xor (rotr32 x 7) (rotr32 x 18)) (x >>> 3)

def sha256s1 (x : Nat) : Nat := Nat.xor (Nat.xor (rotr32 x 17) (rotr32 x 19)) (x >>> 10)

/-- The 64 SHA-256 round constants. -/
def sha256K : List Nat :=
  [1116352408, 1899447441, 3049323471, 3921009573, 961987163, 1508970993, 2453635748, 2870763221,
   3624381080, 310598401, 607225278, 1426881987, 1925078388, 2162078206, 2614888103, 3248222580,
   3835390401, 4022224774, 264347078, 604807628, 770255983, 1249150122, 1555081692, 1996064986,
   2554220882, 2821834349, 2952996808, 3210313671, 3336571891, 3584528711, 113926993, 338241895,
   666307205, 773529912, 1294757372, 1396182291, 1695183700, 1986661051, 2177026350, 2456956037,
   2730485921, 2820302411, 3259730800, 3345764771, 3516065817, 3600352804, 4094571909, 275423344,
   430227734, 506948616, 659060556, 883997877, 958139571, 1322822218, 1537002063, 1747873779,
   1955562222, 2024104815, 2227730452, 2361852424, 2428436474, 2756734187, 3204031479, 3329325298]

/-- Initial SHA-256 hash state. -/
def sha256H0 : List Nat :=
  [1779033703, 3144134277, 1013904242, 2773480762, 1359893119, 2600822924, 528734635, 1541459225]

/-- Big-endian interpretation of a byte list as one number. -/
def beCombine (bs : List Nat) : Nat := bs.foldl (fun acc b => acc * 256 + b % 256) 0

/-- Big-endian byte decomposition of `x` into `n` bytes. -/
def beSplit (n x : Nat) : List Nat :=
  (List.range n).map (fun i => (x >>> (8 * (n - 1 - i))) % 256)

/-- Group a byte list into big-endian 32-bit words (4 bytes each). -/
def bytesToWords : List Nat → List Nat
  | b0 :: b1 :: b2 :: b3 :: rest => beCombine [b0, b1, b2, b3] :: bytesToWords rest
  | _ => []

/-- SHA-256 padding: append `128`, zeros to 56 mod 64, then the 64-bit
big-endian bit length. -/
def sha256Pad (msg : List Nat) : List Nat :=
  let L := msg.length
  let k := (119 - L % 64) % 64
  msg ++ [128] ++ List.replicate k 0 ++ beSplit 8 (8 * L)

/-- Extend 16 message words into the 64-entry message schedule. -/
def sha256Schedule (block : List Nat) : List Nat :=
  (List.range 48).foldl
    (fun W t =>
      W ++ [add32 (add32 (sha256s1 (W.getD (t + 14) 0)) (W.getD (t + 9) 0))
                  (add32 (sha256s0 (W.getD (t + 1) 0)) (W.getD t 0))])
    block

/-- One SHA-256 round: update the 8-word working state with `(kt, wt)`. -/
def sha256Round (st : List Nat) (kw : Nat × Nat) : List Nat :=
  match st with
  | [a, b, c, d, e, f, g, h] =>
    let t1 := add32 (add32 (add32 h (sha256S1 e)) (add32 (sha256Ch e f g) kw.1)) kw.2
    let t2 := add32 (sha256S0 a) (sha256Maj a b c)
    [add32 t1 t2, a, b, c, add32 d t1, e, f, g]
  | other => other

/-- Compress one 64-byte block into the running 8-word hash state. -/
def sha256Compress (st : List Nat) (block : List Nat) : List Nat :=
  let W := sha256Schedule (bytesToWords block)
  let final := (sha256K.zip W).foldl sha256Round st
  (st.zip final).map (fun p => add32 p.1 p.2)

/-- Fold the compression over `n` consecutive 64-byte blocks. -/
def sha256Blocks : Nat → List Nat → List Nat → List Nat
  | 0, st, _ => st
  | n + 1, st, padded => sha256Blocks n (sha256Compress st (padded.take 64)) (padded.drop 64)

/-- SHA-256 digest of a byte list, as a list of 32 bytes. -/
def sha256 (msg : List Nat) : List Nat :=
  let padded := sha256Pad msg
  (sha256Blocks (padded.length / 64) sha256H0 padded).flatMap (beSplit 4)

/-- The UTF-8 encoding of a string as a byte list; Python `str.encode()`. -/
def strEncode (s : String) : List Nat := s.toUTF8.data.toList.map (fun b => b.toNat)

/-! ## hashlib incremental interface and `hash_password`

Python's `hashlib.sha256()` object: `update` feeds more bytes, `digest`
returns SHA-256 of everything fed so far.  The context is modelled by the
accumulated byte sequence, its observable content.
[source: MatchmakingClient.py, hash_password]
-/

structure Sha256Ctx where
  fed : List Nat
deriving Repr, DecidableEq

def Sha256Ctx.init : Sha256Ctx := ⟨[]⟩

def Sha256Ctx.update (m : Sha256Ctx) (bs : List Nat) : Sha256Ctx := ⟨m.fed ++ bs⟩

def Sha256Ctx.digest (m : Sha256Ctx) : List Nat := sha256 m.fed

/-- The function `hash_password(username, password)`: feed the password bytes,
then the username bytes, and take the digest.  [MatchmakingClient.py lines 17-22] -/
def hash_password (username password : String) : List Nat :=
  let m := Sha256Ctx.init
  let m := m.update (strEncode password)
  let m := m.update (strEncode username)
  m.digest

/-! ## Ranking database

Modelled from the spec: `RankingDatabase` (`matchmaking/RankingDatabase.py`)
is not part of the provided sources; only its callers are.  §4.2 of the spec
describes it: a user table keyed by username holding
`(password_hash, ranking, logged_in)`; `set` inserts a new user with default
ranking and logged-out and fails silently if the user exists; `login` is an
atomic check-and-set of `logged_in`; `logoff` clears `logged_in` and is
idempotent; `get_multi` is a read-only bulk fetch of `(name, hash, ranking)`.
The result names are the ones the matchmaker dereferences in
`MatchmakingServer.py`: `NoUser`, `LoginDuplicate`, `LoginFail` and success.
Ranking is a real in the source (default 1000); modelled as `Int`.
-/

structure UserRec where
  password_hash : List Nat
  ranking : Int
  logged_in : Bool
deriving Repr, DecidableEq

/-- The user table, keyed by username. -/
abbrev RankingDB : Type := List (String × UserRec)

def dbLookup (db : RankingDB) (u : String) : Option UserRec :=
  List.lookup u db

/-- Replace the record stored under username `u`. -/
def dbStore (db : RankingDB) (u : String) (r : UserRec) : RankingDB :=
  db.map (fun p => if p.1 = u then (u, r) else p)

inductive LoginResult where
  | Success
  | NoUser
  | LoginDuplicate
  | LoginFail
deriving Repr, DecidableEq

/-- Modelled from the spec: `set(username, password_hash)` inserts a new user
with default ranking 1000 and logged-out; fails silently if the user exists. -/
def dbSet (db : RankingDB) (u : String) (pw : List Nat) : RankingDB :=
  match dbLookup db u with
  | some _ => db
  | none => db ++ [(u, ⟨pw, 1000, false⟩)]

/-- Modelled from the spec: `login(username, password_hash)` — atomic
check-and-set of `logged_in` to true on success. -/
def dbLogin (db : RankingDB) (u : String) (pw : List Nat) : LoginResult × RankingDB :=
  match dbLookup db u with
  | none => (.NoUser, db)
  | some r =>
    if r.password_hash ≠ pw then (.LoginFail, db)
    else if r.logged_in then (.LoginDuplicate, db)
    else (.Success, dbStore db u { r with logged_in := true })

/-- Modelled from the spec: `logoff(username)` clears `logged_in`; idempotent. -/
def dbLogoff (db : RankingDB) (u : String) : RankingDB :=
  match dbLookup db u with
  | none => db
  | some r => dbStore db u { r with logged_in := false }

/-- Modelled from the spec: `get_multi(usernames...)` — read-only bulk fetch
of `(name, password_hash, ranking)` rows for the given usernames. -/
def dbGetMulti (db : RankingDB) (us : List String) : List (String × List Nat × Int) :=
  us.filterMap (fun u => (dbLookup db u).map (fun r => (u, r.password_hash, r.ranking)))

/-! ## Matchmaking messages and client-side request construction -/

structure QuickMatchRequest where
  username : String
  password : List Nat
deriving Repr, DecidableEq

structure QuickMatchReply where
  username : String
  server : String
  auth_key : String
  ranking : Int
  response : String
deriving Repr, DecidableEq

/-- The `QuickMatchRequest` that `request_game` sends: the username is
lowercased first, and the password hash is computed over the lowercased
username.  [MatchmakingClient.py lines 51-55] -/
def request_game_message (username password : String) : QuickMatchRequest :=
  let username := username.toLower
  ⟨username, hash_password username password⟩

/-! ## Matchmaker startup: port probing

`MatchmakingThread.__init__` probes `[starting_port, starting_port + 2·max_games)`,
queues the ports not already in use, and raises `OSError` if fewer than
`max_games` ports survive.  [MatchmakingServer.py lines 136-146]
The environment's `is_port_in_use` probe is abstracted as a boolean predicate.
-/

def initPorts (starting_port max_simultaneous_games : Nat) (is_port_in_use : Nat → Bool) :
    List Nat :=
  (List.range' starting_port (2 * max_simultaneous_games)).filter
    (fun p => !is_port_in_use p)

def matchmakingInit (starting_port max_simultaneous_games : Nat) (is_port_in_use : Nat → Bool) :
    Except String (List Nat) :=
  let ports := initPorts starting_port max_simultaneous_games is_port_in_use
  if ports.length < max_simultaneous_games then
    .error "Port range does not have enough unallocated ports"
  else
    .ok ports

/-! ## Token generation

`secrets.token_hex(32)` returns 32 cryptographically random bytes encoded as
64 lowercase hex characters.  The entropy source is modelled as a byte
stream with a cursor; each draw consumes the next bytes and advances the
cursor, which is what makes successive tokens fresh draws.
-/

structure Entropy where
  bytes : Nat → Nat
  pos : Nat

def hexDigit (n : Nat) : Char :=
  "0123456789abcdef".data.getD n '0'

def hexOfBytes (bs : List Nat) : String :=
  String.mk (bs.flatMap (fun b => [hexDigit (b / 16), hexDigit (b % 16)]))

/-- Model of `secrets.token_hex(k)`: draw `k` bytes from the entropy stream and
hex-encode them; the cursor advances past the bytes used. -/
def token_hex (k : Nat) (e : Entropy) : String × Entropy :=
  (hexOfBytes ((List.range k).map (fun i => e.bytes (e.pos + i) % 256)),
   ⟨e.bytes, e.pos + k⟩)

/-- A well-formed auth token: exactly 64 characters, all lowercase hex. -/
def tokenWF (s : String) : Prop :=
  s.length = 64 ∧ ∀ c ∈ s.data, c ∈ "0123456789abcdef".data

instance (s : String) : Decidable (tokenWF s) := by
  unfold tokenWF
  infer_instance

/-! ## Matchmaker request loop

`MatchmakingThread.run` [MatchmakingServer.py lines 150-210].  One iteration
receives `(identity, request)`, logs the user in (creating it on `NoUser`),
replies `FAIL` on `LoginDuplicate` / `LoginFail` without enqueueing, otherwise
appends `(identity, request, token)` to the deque; once the deque holds
`players_per_game` entries it acquires the match-limit semaphore, pops the
cohort with `deque.pop()` (the same end `append` pushes to), takes a port
from the queue, starts a janitor, and replies to every cohort member.

Blocking (semaphore exhausted when no janitor can release it, or empty port
queue) is modelled as `none`.  Starting the janitor and the replies sent are
recorded as events.
-/

structure MatchEntry where
  identity : Nat
  request : QuickMatchRequest
  token : String
deriving Repr, DecidableEq

inductive MMEvent where
  | replied (identity : Nat) (reply : QuickMatchReply)
  | janitorStarted (port : Nat) (usernames : List String) (whitelist : List String)
deriving Repr, DecidableEq

structure MMState where
  db : RankingDB
  match_requests : List MatchEntry
  ports_to_use : List Nat
  match_limit : Nat
  entropy : Entropy
  events : List MMEvent

/-- The operation `match_requests.pop()` performed `n` times: each pop removes the LAST
element of the deque (Python `deque.pop()` pops from the right, the same end
`append` pushes to).  Returns the popped entries in pop order, and the
remaining deque. -/
def popN : Nat → List MatchEntry → List MatchEntry × List MatchEntry
  | 0, dq => ([], dq)
  | n + 1, dq =>
    match dq.getLast? with
    | none => ([], dq)
    | some e =>
      let rest := popN n dq.dropLast
      (e :: rest.1, rest.2)

/-- Ranking lookup in the `database_entries` dict built from `get_multi`.
Python's dict comprehension keeps the last row for a repeated name. -/
def rankingOf (rows : List (String × List Nat × Int)) (u : String) : Int :=
  ((rows.reverse.lookup u).map (fun r => r.2)).getD 0

/-- The duplicate-login failure reply.  [MatchmakingServer.py lines 167-168] -/
def failDuplicateReply (username : String) : QuickMatchReply :=
  ⟨username, "FAIL", "FAIL", 0, "Failed to login: Cannot login twice at the same time."⟩

/-- The wrong-password failure reply.  [MatchmakingServer.py lines 173-174] -/
def failWrongPasswordReply (username : String) : QuickMatchReply :=
  ⟨username, "FAIL", "FAIL", 0, "Failed to login: Wrong password."⟩

/-- The successful reply for one cohort member.
[MatchmakingServer.py lines 204-208] -/
def successReply (hostname : String) (port : Nat)
    (rows : List (String × List Nat × Int)) (e : MatchEntry) : QuickMatchReply :=
  ⟨e.request.username,
   hostname ++ ":" ++ toString port,
   e.token,
   rankingOf rows e.request.username,
   ""⟩

/-- Enqueue a logged-in request and start a match once the deque holds a full
cohort; the tail of one `MatchmakingThread.run` iteration
[MatchmakingServer.py lines 178-210]. -/
def enqueueAndMatch (hostname : String) (players_per_game : Nat) (st : MMState)
    (identity : Nat) (request : QuickMatchRequest) : Option MMState :=
  let drawn := token_hex 32 st.entropy
  let dq := st.match_requests ++ [⟨identity, request, drawn.1⟩]
  let st := { st with match_requests := dq, entropy := drawn.2 }
  if players_per_game ≤ dq.length then
    match st.match_limit with
    | 0 => none
    | limit + 1 =>
      let popped := popN players_per_game dq
      let new_players := popped.1
      let whitelist := new_players.map (fun p => p.token)
      let usernames := new_players.map (fun p => p.request.username)
      match st.ports_to_use with
      | [] => none
      | match_port :: ports_rest =>
        let database_entries := dbGetMulti st.db usernames
        some { st with
          match_requests := popped.2,
          ports_to_use := ports_rest,
          match_limit := limit,
          events := st.events
            ++ [.janitorStarted match_port usernames whitelist]
            ++ new_players.map
                 (fun e => .replied e.identity (successReply hostname match_port database_entries e)) }
  else
    some st

/-- One full iteration of `MatchmakingThread.run` on a received
`(identity, request)` pair.  [MatchmakingServer.py lines 153-210] -/
def processRequest (hostname : String) (players_per_game : Nat) (st : MMState)
    (identity : Nat) (request : QuickMatchRequest) : Option MMState :=
  let username := request.username
  let password := request.password
  let logres := dbLogin st.db username password
  match logres.1 with
  | .NoUser =>
    let db := dbSet logres.2 username password
    let db := (dbLogin db username password).2
    enqueueAndMatch hostname players_per_game { st with db := db } identity request
  | .LoginDuplicate =>
    some { st with db := logres.2,
                   events := st.events ++ [.replied identity (failDuplicateReply username)] }
  | .LoginFail =>
    some { st with db := logres.2,
                   events := st.events ++ [.replied identity (failWrongPasswordReply username)] }
  | .Success =>
    enqueueAndMatch hostname players_per_game { st with db := logres.2 } identity request

/-! ## Match janitor

`MatchProcessJanitor.run` [MatchmakingServer.py lines 86-100]: start the
match-server app (which blocks until the match ends), then return the port to
the port queue, log off every cohort username, and release the semaphore.
The method body has no try/finally: if starting or running the app raises,
the exception propagates out of `run` and none of the cleanup executes.
The app outcome is an explicit parameter; each release performed is recorded
as an event.
-/

inductive AppOutcome where
  | completes
  | raises
deriving Repr, DecidableEq

inductive JanitorEvent where
  | portReturned (port : Nat)
  | loggedOff (user : String)
  | semaphoreReleased
deriving Repr, DecidableEq

structure JanitorState where
  ports_to_use : List Nat
  db : RankingDB
  match_limit : Nat
deriving Repr, DecidableEq

/-- Body of `MatchProcessJanitor.run` on a janitor holding `port` and the cohort
usernames `player_list`.  [MatchmakingServer.py lines 86-100] -/
def janitorRun (port : Nat) (player_list : List String) (outcome : AppOutcome)
    (st : JanitorState) : JanitorState × List JanitorEvent :=
  match outcome with
  | .raises => (st, [])
  | .completes =>
    ({ ports_to_use := st.ports_to_use ++ [port],
       db := player_list.foldl dbLogoff st.db,
       match_limit := st.match_limit + 1 },
     .portReturned port :: player_list.map .loggedOff ++ [.semaphoreReleased])

/-! ## Client adapter (`client_network_env.py`)

The dataframe is modelled by the snapshot the client currently sees
(its own player record plus the singleton `ServerState` record) and the list
of snapshots that successive `pull`/`checkout` calls will deliver.  Pickle
serialization of the winners list round-trips, so the stored blob is
modelled as the list itself.  Observation dimension fields of the player
record are an association list indexed by dimension name; Python `getattr`
is a lookup in it.
-/

structure PlayerRec where
  pid : Nat
  name : String
  number : Int
  turn : Bool
  action : String
  ready_for_action_to_be_taken : Bool
  reward_from_last_turn : Int
  acknowledges_game_over : Bool
  obs : List (String × Int)
deriving Repr, DecidableEq

structure ServerStateRec where
  env_class_name : String
  env_dimensions : List String
  terminal : Bool
  winners : List Nat
  serialized_state : List Nat
deriving Repr, DecidableEq

/-- One consistent dataframe view after a `pull`/`checkout`. -/
structure Snapshot where
  player : PlayerRec
  server : ServerStateRec
deriving Repr, DecidableEq

/-- The helper `game_is_terminal(dataframe)`: read the singleton `ServerState`
record terminal flag from the current view.  [client_network_env.py lines 18-19] -/
def game_is_terminal (view : Snapshot) : Bool :=
  view.server.terminal

/-- Python `getattr(player, dimension_name)` on an observation field. -/
def playerGetAttr (p : PlayerRec) (dimension_name : String) : Int :=
  ((p.obs.lookup dimension_name).getD 0)

/-- The observation dictionary
`{d: getattr(player, d) for d in dimension_names}`. -/
def observationDict (dimension_names : List String) (p : PlayerRec) : List (String × Int) :=
  dimension_names.map (fun d => (d, playerGetAttr p d))

/-- The polling loop
`while not player.turn or player.ready_for_action_to_be_taken: tick; pull`:
if the current view already shows `turn` and not
`ready_for_action_to_be_taken`, it exits at once; otherwise each iteration
pulls the next snapshot.  `none` models blocking forever because the
snapshot stream ends without the predicate holding.
[client_network_env.py lines 79-83] -/
def stepPoll : Snapshot → List Snapshot → Option Snapshot
  | view, future =>
    if view.player.turn && !view.player.ready_for_action_to_be_taken then some view
    else
      match future with
      | [] => none
      | s :: rest => stepPoll s rest

/-- Result of one `step` command inside `client_app`: the tuple sent back on
the pipe, the sequence of player records committed, and the dataframe view
held when the command finishes. -/
structure StepOutcome where
  dimensions : List (String × Int)
  reward : Int
  terminal : Bool
  winners : Option (List Nat)
  commits : List PlayerRec
  finalView : Snapshot
deriving Repr, DecidableEq

/-- The tail of the step branch [client_network_env.py lines 85-98]: with the
wait (if any) over and `v` the view now held, read the observation
dictionary, the reward and the terminal flag; when terminal, deserialize the
winners and commit `acknowledges_game_over`.  `commits0` carries the commits
already performed by the branch. -/
def finishStep (dimension_names : List String) (v : Snapshot)
    (commits0 : List PlayerRec) : StepOutcome :=
  let dimensions := observationDict dimension_names v.player
  let reward := v.player.reward_from_last_turn
  let terminal := game_is_terminal v
  if terminal then
    let winners := v.server.winners
    let acked := { v.player with acknowledges_game_over := true }
    ⟨dimensions, reward, terminal, some winners, commits0 ++ [acked], ⟨acked, v.server⟩⟩
  else
    ⟨dimensions, reward, terminal, none, commits0, v⟩

/-- The `step` command branch of `client_app`
[client_network_env.py lines 68-98].  If the game is not terminal on the
current view: write `action` and `ready_for_action_to_be_taken := true`,
commit-and-push once, then poll until the pulled player record shows
`turn` and not `ready_for_action_to_be_taken`; finally `finishStep`. -/
def clientStep (action : String) (dimension_names : List String)
    (view : Snapshot) (future : List Snapshot) : Option StepOutcome :=
  if !game_is_terminal view then
    let committed : PlayerRec :=
      { view.player with action := action, ready_for_action_to_be_taken := true }
    match stepPoll ⟨committed, view.server⟩ future with
    | none => none
    | some v => some (finishStep dimension_names v [committed])
  else
    some (finishStep dimension_names ⟨view.player, view.server⟩ [])

/-! ## `close` and its double invocation

`ClientNetworkEnv.close` [client_network_env.py lines 149-151] sends
`("close", None)` over the `multiprocessing.Pipe` to the app thread and joins
it.  The app's close branch [lines 100-103] deletes the player record,
closes ITS end of the pipe, and exits the loop.  Pipe semantics: `send` on a
connection whose peer end has been closed raises `BrokenPipeError`.
The model composes the synchronous exchange (close blocks on `join` until
the app thread finishes).
-/

inductive PipeError where
  | brokenPipe
deriving Repr, DecidableEq

structure ClientEnvState where
  /-- The app thread's pipe end (`remote` inside `client_app`) is open. -/
  appPipeOpen : Bool
  /-- The app thread is still running its command loop. -/
  appRunning : Bool
  /-- The player record has been deleted from the dataframe. -/
  playerDeleted : Bool
deriving Repr, DecidableEq

/-- State of a `ClientNetworkEnv` whose constructor has completed. -/
def clientEnvInit : ClientEnvState :=
  ⟨true, true, false⟩

/-- Method `ClientNetworkEnv.close()`: send `("close", None)` on the pipe — raising
`BrokenPipeError` if the app already closed its end — after which the app
deletes the player record, closes its pipe end and exits; `join` then
returns.  [client_network_env.py lines 100-103 and 149-151] -/
def clientClose (st : ClientEnvState) : Except PipeError ClientEnvState :=
  if !st.appPipeOpen then
    .error .brokenPipe
  else
    .ok { appPipeOpen := false, appRunning := false, playerDeleted := true }

/-! ## Supporting lemmas -/

/-- Popping `n` entries from the right of the deque yields the last `n`
entries newest-first, leaving the rest. -/
theorem popN_eq (n : Nat) : ∀ dq : List MatchEntry,
    popN n dq = (dq.reverse.take n, (dq.reverse.drop n).reverse) := by
  induction n with
  | zero => intro dq; simp [popN]
  | succ k ih =>
    intro dq
    cases hr : dq.reverse with
    | nil =>
      have hdq : dq = [] := by
        have := congrArg List.reverse hr
        simpa using this
      subst hdq
      simp [popN]
    | cons e t =>
      have hdq : dq = t.reverse ++ [e] := by
        have := congrArg List.reverse hr
        simpa using this
      subst hdq
      simp [popN, List.getLast?_concat, List.dropLast_concat, ih]

/-- NIST test vector: SHA-256 of the string "abc". -/
theorem sha256_abc_vector :
    sha256 (strEncode "abc") =
      [186, 120, 22, 191, 143, 1, 207, 234, 65, 65, 64, 222,
       93, 174, 34, 35, 176, 3, 97, 163, 150, 23, 122, 156,
       180, 16, 255, 97, 242, 0, 21, 173] := by decide

/-- C5: matchmaker startup queues exactly the free ports of the probed
half-open range `[starting_port, starting_port + 2·max_games)` and fails with
an error when fewer than `max_games` ports survive. -/
theorem C5_port_probe (sp mg : Nat) (f : Nat → Bool) :
    (∀ p, p ∈ initPorts sp mg f ↔ (sp ≤ p ∧ p < sp + 2 * mg ∧ f p = false))
    ∧ ((initPorts sp mg f).length < mg →
        ∃ e, matchmakingInit sp mg f = Except.error e)
    ∧ (mg ≤ (initPorts sp mg f).length →
        matchmakingInit sp mg f = Except.ok (initPorts sp mg f)) := by
  refine ⟨fun p => ?_, fun h => ?_, fun h => ?_⟩
  · simp [initPorts, List.mem_filter, List.mem_range'_1, and_assoc]
  · simp only [matchmakingInit]
    rw [if_pos h]
    exact ⟨_, rfl⟩
  · simp only [matchmakingInit]
    rw [if_neg (by omega)]

/-- C6: hash_password equals SHA-256 of password bytes followed by username
bytes; it is deterministic (the model is a pure function, so repeated
invocation is definitionally equal), and order-sensitive: for a concrete
pair the two concatenation orders give different digests. -/
theorem C6_hash_password (u p : String) :
    hash_password u p = sha256 (strEncode p ++ strEncode u)
    ∧ hash_password u p = hash_password u p
    ∧ ∃ u2 p2 : String, hash_password u2 p2 ≠ sha256 (strEncode u2 ++ strEncode p2) := by
  refine ⟨?_, rfl, "a", "b", ?_⟩
  · simp [hash_password, Sha256Ctx.init, Sha256Ctx.update, Sha256Ctx.digest]
  · decide

/-- C4: when login reports a duplicate, the matchmaker replies with the FAIL
duplicate-login message and moves on, leaving the deque, the semaphore, the
port queue and the entropy cursor untouched. -/
theorem C4_duplicate_login (hostname : String) (n : Nat) (st : MMState)
    (identity : Nat) (req : QuickMatchRequest)
    (hdup : (dbLogin st.db req.username req.password).1 = LoginResult.LoginDuplicate) :
    ∃ st', processRequest hostname n st identity req = some st'
      ∧ st'.match_requests = st.match_requests
      ∧ st'.match_limit = st.match_limit
      ∧ st'.ports_to_use = st.ports_to_use
      ∧ st'.entropy.pos = st.entropy.pos
      ∧ st'.db = (dbLogin st.db req.username req.password).2
      ∧ st'.events = st.events ++ [MMEvent.replied identity (failDuplicateReply req.username)] := by
  have hmain : processRequest hostname n st identity req =
      some { st with db := (dbLogin st.db req.username req.password).2,
                     events := st.events
                       ++ [MMEvent.replied identity (failDuplicateReply req.username)] } := by
    simp only [processRequest, hdup]
  exact ⟨_, hmain, rfl, rfl, rfl, rfl, rfl, rfl⟩

/-- C4 witness: a concrete duplicate login. -/
theorem C4_duplicate_login_witness :
    (dbLogin [("bob", ⟨[], 1000, true⟩)] "bob" []).1 = LoginResult.LoginDuplicate
    ∧ ∃ st', processRequest "localhost" 2
        ⟨[("bob", ⟨[], 1000, true⟩)], [], [21450], 1, ⟨fun _ => 0, 0⟩, []⟩ 7 ⟨"bob", []⟩ = some st'
      ∧ st'.match_requests = ([] : List MatchEntry)
      ∧ st'.match_limit = 1
      ∧ st'.ports_to_use = [21450]
      ∧ st'.entropy.pos = 0
      ∧ st'.db = (dbLogin [("bob", ⟨[], 1000, true⟩)] "bob" []).2
      ∧ st'.events = [] ++ [MMEvent.replied 7 (failDuplicateReply "bob")] :=
  ⟨by decide,
   C4_duplicate_login "localhost" 2 ⟨[("bob", ⟨[], 1000, true⟩)], [], [21450], 1, ⟨fun _ => 0, 0⟩, []⟩
     7 ⟨"bob", []⟩ (by decide)⟩

/-- C8 counterexample: after a completed close, a second close is not a
no-op — it raises a broken-pipe error, because the first close made the app
thread close its pipe end and exit. -/
theorem C8_counterexample :
    clientClose clientEnvInit = Except.ok ⟨false, false, true⟩
    ∧ clientClose ⟨false, false, true⟩ = Except.error PipeError.brokenPipe
    ∧ clientClose ⟨false, false, true⟩ ≠ Except.ok ⟨false, false, true⟩ := by
  refine ⟨rfl, rfl, fun h => ?_⟩
  exact Except.noConfusion h

/-- C8 amended: a second close after a completed close always raises a
broken-pipe error (the send side of the pipe finds the app end closed). -/
theorem C8_close_after_close (st st' : ClientEnvState)
    (h : clientClose st = Except.ok st') :
    clientClose st' = Except.error PipeError.brokenPipe := by
  unfold clientClose at h ⊢
  by_cases hop : st.appPipeOpen
  · simp [hop] at h
    simp [← h]
  · simp [hop] at h

/-- C8 amended witness: the concrete double close. -/
theorem C8_close_after_close_witness :
    clientClose clientEnvInit = Except.ok ⟨false, false, true⟩
    ∧ clientClose (⟨false, false, true⟩ : ClientEnvState) = Except.error PipeError.brokenPipe :=
  ⟨rfl, C8_close_after_close clientEnvInit ⟨false, false, true⟩ rfl⟩

/-- C3 counterexample: on the exit path where starting or running the match
server raises, the janitor releases nothing — the port is not returned, so
it is not released exactly once. -/
theorem C3_counterexample :
    (janitorRun 21450 ["alice"] AppOutcome.raises ⟨[], [("alice", ⟨[], 1000, true⟩)], 0⟩).2.count
        (JanitorEvent.portReturned 21450) = 0
    ∧ ¬ ((janitorRun 21450 ["alice"] AppOutcome.raises ⟨[], [("alice", ⟨[], 1000, true⟩)], 0⟩).2.count
        (JanitorEvent.portReturned 21450) = 1
        ∧ (janitorRun 21450 ["alice"] AppOutcome.raises ⟨[], [("alice", ⟨[], 1000, true⟩)], 0⟩).2.count
        (JanitorEvent.loggedOff "alice") = 1
        ∧ (janitorRun 21450 ["alice"] AppOutcome.raises ⟨[], [("alice", ⟨[], 1000, true⟩)], 0⟩).2.count
        JanitorEvent.semaphoreReleased = 1) := by
  decide

/-- C3 amended: when the match-server app completes normally the janitor
releases each resource exactly once (port returned once, every distinct
cohort username logged off once, semaphore released once); when the app
raises, the exception propagates and nothing is released. -/
theorem C3_janitor_cleanup (port : Nat) (users : List String) (st : JanitorState)
    (hnodup : users.Nodup) :
    (janitorRun port users AppOutcome.completes st).2.count (JanitorEvent.portReturned port) = 1
    ∧ (∀ u ∈ users,
        (janitorRun port users AppOutcome.completes st).2.count (JanitorEvent.loggedOff u) = 1)
    ∧ (janitorRun port users AppOutcome.completes st).2.count JanitorEvent.semaphoreReleased = 1
    ∧ (janitorRun port users AppOutcome.completes st).1.ports_to_use = st.ports_to_use ++ [port]
    ∧ (janitorRun port users AppOutcome.completes st).1.match_limit = st.match_limit + 1
    ∧ janitorRun port users AppOutcome.raises st = (st, []) := by
  refine ⟨?_, ?_, ?_, rfl, rfl, rfl⟩
  · simp [janitorRun, List.count_cons, List.count_append, List.count_eq_zero]
  · intro u hu
    have hinj : Function.Injective JanitorEvent.loggedOff := by
      intro a b hab
      cases hab
      rfl
    simp [janitorRun, List.count_cons, List.count_append,
          List.count_map_of_injective users JanitorEvent.loggedOff hinj u,
          List.count_eq_one_of_mem hnodup hu]
  · simp [janitorRun, List.count_cons, List.count_append, List.count_eq_zero]

/-- C3 amended witness: a concrete two-player janitor. -/
theorem C3_janitor_cleanup_witness :
    (["alice", "bob"] : List String).Nodup
    ∧ ((janitorRun 21450 ["alice", "bob"] AppOutcome.completes ⟨[], [], 0⟩).2.count
          (JanitorEvent.portReturned 21450) = 1
      ∧ (∀ u ∈ (["alice", "bob"] : List String),
          (janitorRun 21450 ["alice", "bob"] AppOutcome.completes ⟨[], [], 0⟩).2.count
            (JanitorEvent.loggedOff u) = 1)
      ∧ (janitorRun 21450 ["alice", "bob"] AppOutcome.completes ⟨[], [], 0⟩).2.count
          JanitorEvent.semaphoreReleased = 1
      ∧ (janitorRun 21450 ["alice", "bob"] AppOutcome.completes ⟨[], [], 0⟩).1.ports_to_use
          = [] ++ [21450]
      ∧ (janitorRun 21450 ["alice", "bob"] AppOutcome.completes ⟨[], [], 0⟩).1.match_limit = 0 + 1
      ∧ janitorRun 21450 ["alice", "bob"] AppOutcome.raises ⟨[], [], 0⟩ = (⟨[], [], 0⟩, [])) :=
  ⟨by decide, C3_janitor_cleanup 21450 ["alice", "bob"] ⟨[], [], 0⟩ (by decide)⟩


/-- When the polling loop returns a snapshot, that snapshot's player record
shows the turn flag set and the ready flag cleared. -/
theorem stepPoll_spec : ∀ (future : List Snapshot) (view v : Snapshot),
    stepPoll view future = some v →
    v.player.turn = true ∧ v.player.ready_for_action_to_be_taken = false := by
  intro future
  induction future with
  | nil =>
    intro view v h
    unfold stepPoll at h
    split at h
    · rename_i hcond
      cases h
      simpa using hcond
    · cases h
  | cons s rest ih =>
    intro view v h
    unfold stepPoll at h
    split at h
    · rename_i hcond
      cases h
      simpa using hcond
    · exact ih s v h

/-- C10: when the singleton server state is already terminal, step returns
at once with the current observation fields, the current reward, terminal
true and the deserialized winners, committing only the game-over
acknowledgment (no action write, no ready flag, no waiting on the pull
stream — the outcome is the same with no future snapshots at all); and
whenever a step reports terminal false, its winners value is none. -/
theorem C10_terminal_step (action : String) (dims : List String)
    (view : Snapshot) (future : List Snapshot)
    (hterm : game_is_terminal view = true) :
    clientStep action dims view future =
      some ⟨observationDict dims view.player,
            view.player.reward_from_last_turn,
            true,
            some view.server.winners,
            [{ view.player with acknowledges_game_over := true }],
            ⟨{ view.player with acknowledges_game_over := true }, view.server⟩⟩
    ∧ clientStep action dims view future = clientStep action dims view []
    ∧ (∀ (v : Snapshot) (fut : List Snapshot) (out : StepOutcome),
        clientStep action dims v fut = some out → out.terminal = false →
          out.winners = none) := by
  have hterm' : view.server.terminal = true := hterm
  refine ⟨?_, ?_, ?_⟩
  · simp [clientStep, game_is_terminal, finishStep, hterm']
  · simp [clientStep, game_is_terminal, hterm']
  · intro v fut out h hf
    have hwin : ∀ (w : Snapshot) (c : List PlayerRec),
        (finishStep dims w c).terminal = false → (finishStep dims w c).winners = none := by
      intro w c
      unfold finishStep
      cases hw : w.server.terminal with
      | true => simp [game_is_terminal, hw]
      | false => simp [game_is_terminal, hw]
    unfold clientStep at h
    cases hv : v.server.terminal with
    | true =>
      simp [game_is_terminal, hv] at h
      rw [← h] at hf ⊢
      exact hwin _ _ hf
    | false =>
      simp [game_is_terminal, hv] at h
      split at h
      · cases h
      · rename_i w hpoll
        cases h
        exact hwin _ _ hf

/-- C10 witness: a concrete terminal view, with winners `[1]`. -/
theorem C10_terminal_step_witness :
    game_is_terminal ⟨⟨0, "p", 0, false, "", false, 3, false, [("x", 5)]⟩,
                      ⟨"Env", ["x"], true, [1], []⟩⟩ = true
    ∧ (clientStep "a" ["x"]
        ⟨⟨0, "p", 0, false, "", false, 3, false, [("x", 5)]⟩, ⟨"Env", ["x"], true, [1], []⟩⟩
        [⟨⟨0, "p", 0, true, "", false, 9, false, [("x", 6)]⟩, ⟨"Env", ["x"], true, [1], []⟩⟩] =
      some ⟨observationDict ["x"] ⟨0, "p", 0, false, "", false, 3, false, [("x", 5)]⟩,
            (⟨0, "p", 0, false, "", false, 3, false, [("x", 5)]⟩ : PlayerRec).reward_from_last_turn,
            true,
            some (⟨"Env", ["x"], true, [1], []⟩ : ServerStateRec).winners,
            [{ (⟨0, "p", 0, false, "", false, 3, false, [("x", 5)]⟩ : PlayerRec) with
                acknowledges_game_over := true }],
            ⟨{ (⟨0, "p", 0, false, "", false, 3, false, [("x", 5)]⟩ : PlayerRec) with
                acknowledges_game_over := true }, ⟨"Env", ["x"], true, [1], []⟩⟩⟩
      ∧ clientStep "a" ["x"]
          ⟨⟨0, "p", 0, false, "", false, 3, false, [("x", 5)]⟩, ⟨"Env", ["x"], true, [1], []⟩⟩
          [⟨⟨0, "p", 0, true, "", false, 9, false, [("x", 6)]⟩, ⟨"Env", ["x"], true, [1], []⟩⟩] =
        clientStep "a" ["x"]
          ⟨⟨0, "p", 0, false, "", false, 3, false, [("x", 5)]⟩, ⟨"Env", ["x"], true, [1], []⟩⟩ []
      ∧ (∀ (v : Snapshot) (fut : List Snapshot) (out : StepOutcome),
          clientStep "a" ["x"] v fut = some out → out.terminal = false →
            out.winners = none)) :=
  ⟨by decide,
   C10_terminal_step "a" ["x"]
     ⟨⟨0, "p", 0, false, "", false, 3, false, [("x", 5)]⟩, ⟨"Env", ["x"], true, [1], []⟩⟩
     [⟨⟨0, "p", 0, true, "", false, 9, false, [("x", 6)]⟩, ⟨"Env", ["x"], true, [1], []⟩⟩]
     (by decide)⟩

/-- Reduction of `finishStep` when the held view is terminal. -/
theorem finishStep_terminal (dims : List String) (v : Snapshot) (c0 : List PlayerRec)
    (h : v.server.terminal = true) :
    finishStep dims v c0 =
      ⟨observationDict dims v.player, v.player.reward_from_last_turn, true,
       some v.server.winners,
       c0 ++ [{ v.player with acknowledges_game_over := true }],
       ⟨{ v.player with acknowledges_game_over := true }, v.server⟩⟩ := by
  simp [finishStep, game_is_terminal, h]

/-- Reduction of `finishStep` when the held view is not terminal. -/
theorem finishStep_not_terminal (dims : List String) (v : Snapshot) (c0 : List PlayerRec)
    (h : v.server.terminal = false) :
    finishStep dims v c0 =
      ⟨observationDict dims v.player, v.player.reward_from_last_turn, false, none, c0, v⟩ := by
  simp [finishStep, game_is_terminal, h]

/-- C7: a step taken while the game is not terminal commits the action
together with the ready flag as its first (single-record) commit, waits until
the pulled player record shows the turn flag and a cleared ready flag, and
returns the observation dictionary, reward, terminal flag and winners read
from the view then held; on terminal it additionally commits the game-over
acknowledgment before returning. -/
theorem C7_step (action : String) (dims : List String) (view : Snapshot)
    (future : List Snapshot) (out : StepOutcome)
    (hterm : game_is_terminal view = false)
    (hrun : clientStep action dims view future = some out) :
    out.commits.head? =
      some { view.player with action := action, ready_for_action_to_be_taken := true }
    ∧ out.finalView.player.turn = true
    ∧ out.finalView.player.ready_for_action_to_be_taken = false
    ∧ out.dimensions = observationDict dims out.finalView.player
    ∧ out.reward = out.finalView.player.reward_from_last_turn
    ∧ out.terminal = game_is_terminal out.finalView
    ∧ (out.terminal = true →
        out.winners = some out.finalView.server.winners
        ∧ out.commits =
            [{ view.player with action := action, ready_for_action_to_be_taken := true },
             out.finalView.player]
        ∧ out.finalView.player.acknowledges_game_over = true)
    ∧ (out.terminal = false →
        out.winners = none
        ∧ out.commits =
            [{ view.player with action := action, ready_for_action_to_be_taken := true }]) := by
  have hterm' : view.server.terminal = false := hterm
  unfold clientStep at hrun
  simp [game_is_terminal, hterm'] at hrun
  split at hrun
  · cases hrun
  · rename_i v hpoll
    have hturn := stepPoll_spec _ _ _ hpoll
    cases hrun
    cases hv : v.server.terminal with
    | true =>
      rw [finishStep_terminal dims v _ hv]
      refine ⟨rfl, hturn.1, hturn.2, rfl, rfl, ?_, fun _ => ⟨rfl, rfl, rfl⟩, fun hfalse => ?_⟩
      · exact hv.symm
      · exact absurd hfalse (by simp)
    | false =>
      rw [finishStep_not_terminal dims v _ hv]
      refine ⟨rfl, hturn.1, hturn.2, rfl, rfl, ?_, fun htrue => ?_, fun _ => ⟨rfl, rfl⟩⟩
      · exact hv.symm
      · exact absurd htrue (by simp)

/-- C7 witness: one concrete non-terminal step that finds its turn on the
first pulled snapshot. -/
theorem C7_step_witness :
    game_is_terminal ⟨⟨0, "p", 0, true, "", false, 0, false, [("x", 5)]⟩,
                      ⟨"Env", ["x"], false, [], []⟩⟩ = false
    ∧ clientStep "a" ["x"]
        ⟨⟨0, "p", 0, true, "", false, 0, false, [("x", 5)]⟩, ⟨"Env", ["x"], false, [], []⟩⟩
        [⟨⟨0, "p", 0, true, "a", false, 7, false, [("x", 9)]⟩, ⟨"Env", ["x"], false, [], []⟩⟩] =
      some ⟨[("x", 9)], 7, false, none,
            [⟨0, "p", 0, true, "a", true, 0, false, [("x", 5)]⟩],
            ⟨⟨0, "p", 0, true, "a", false, 7, false, [("x", 9)]⟩, ⟨"Env", ["x"], false, [], []⟩⟩⟩
    ∧ (let out : StepOutcome :=
         ⟨[("x", 9)], 7, false, none,
          [⟨0, "p", 0, true, "a", true, 0, false, [("x", 5)]⟩],
          ⟨⟨0, "p", 0, true, "a", false, 7, false, [("x", 9)]⟩, ⟨"Env", ["x"], false, [], []⟩⟩⟩
       out.commits.head? =
         some { (⟨0, "p", 0, true, "", false, 0, false, [("x", 5)]⟩ : PlayerRec) with
                  action := "a", ready_for_action_to_be_taken := true }
       ∧ out.finalView.player.turn = true
       ∧ out.finalView.player.ready_for_action_to_be_taken = false
       ∧ out.dimensions = observationDict ["x"] out.finalView.player
       ∧ out.reward = out.finalView.player.reward_from_last_turn
       ∧ out.terminal = game_is_terminal out.finalView
       ∧ (out.terminal = true →
           out.winners = some out.finalView.server.winners
           ∧ out.commits =
               [{ (⟨0, "p", 0, true, "", false, 0, false, [("x", 5)]⟩ : PlayerRec) with
                    action := "a", ready_for_action_to_be_taken := true },
                out.finalView.player]
           ∧ out.finalView.player.acknowledges_game_over = true)
       ∧ (out.terminal = false →
           out.winners = none
           ∧ out.commits =
               [{ (⟨0, "p", 0, true, "", false, 0, false, [("x", 5)]⟩ : PlayerRec) with
                    action := "a", ready_for_action_to_be_taken := true }])) :=
  ⟨by decide, by decide,
   C7_step "a" ["x"]
     ⟨⟨0, "p", 0, true, "", false, 0, false, [("x", 5)]⟩, ⟨"Env", ["x"], false, [], []⟩⟩
     [⟨⟨0, "p", 0, true, "a", false, 7, false, [("x", 9)]⟩, ⟨"Env", ["x"], false, [], []⟩⟩]
     ⟨[("x", 9)], 7, false, none,
      [⟨0, "p", 0, true, "a", true, 0, false, [("x", 5)]⟩],
      ⟨⟨0, "p", 0, true, "a", false, 7, false, [("x", 9)]⟩, ⟨"Env", ["x"], false, [], []⟩⟩⟩
     (by decide) (by decide)⟩

/-- C1 counterexample: with two players per game, requests arriving in order
u1 then u2 produce a cohort ordered u2 then u1 — the deque is popped from the
same end it is appended to, so the cohort is the most recent requests
newest-first, not the earliest requests in FIFO order. -/
theorem C1_counterexample :
    (((processRequest "localhost" 2 ⟨[], [], [21450], 1, ⟨fun _ => 0, 0⟩, []⟩ 1 ⟨"u1", []⟩).bind
        (fun st1 => processRequest "localhost" 2 st1 2 ⟨"u2", []⟩)).map
       (fun st2 => st2.events.filterMap (fun ev =>
          match ev with
          | MMEvent.janitorStarted _ usernames _ => some usernames
          | _ => none)))
      = some [["u2", "u1"]]
    ∧ ¬ ((((processRequest "localhost" 2 ⟨[], [], [21450], 1, ⟨fun _ => 0, 0⟩, []⟩ 1 ⟨"u1", []⟩).bind
        (fun st1 => processRequest "localhost" 2 st1 2 ⟨"u2", []⟩)).map
       (fun st2 => st2.events.filterMap (fun ev =>
          match ev with
          | MMEvent.janitorStarted _ usernames _ => some usernames
          | _ => none)))
      = some [["u1", "u2"]]) := by
  decide

/-- C1 amended: whenever the deque reaches `players_per_game` after the new
request is appended (and a semaphore unit and a port are available), the
cohort started consists of the `players_per_game` MOST RECENTLY enqueued
requests, popped newest-first (the reverse of the deque's tail segment), and
the remaining deque keeps the oldest entries. -/
theorem C1_cohort_lifo (hostname : String) (n : Nat) (st : MMState)
    (identity : Nat) (req : QuickMatchRequest) (m : Nat) (port : Nat) (rest : List Nat)
    (hsem : st.match_limit = m + 1)
    (hports : st.ports_to_use = port :: rest)
    (hfull : n ≤ st.match_requests.length + 1) :
    ∃ st', enqueueAndMatch hostname n st identity req = some st'
      ∧ st'.match_requests =
          (((st.match_requests ++ [(⟨identity, req, (token_hex 32 st.entropy).1⟩ : MatchEntry)]).reverse.drop n).reverse)
      ∧ st'.ports_to_use = rest
      ∧ st'.match_limit = m
      ∧ st'.events = st.events
          ++ [MMEvent.janitorStarted port
                (((st.match_requests ++ [(⟨identity, req, (token_hex 32 st.entropy).1⟩ : MatchEntry)]).reverse.take n).map
                   (fun e : MatchEntry => e.request.username))
                (((st.match_requests ++ [(⟨identity, req, (token_hex 32 st.entropy).1⟩ : MatchEntry)]).reverse.take n).map
                   (fun e : MatchEntry => e.token))]
          ++ ((st.match_requests ++ [(⟨identity, req, (token_hex 32 st.entropy).1⟩ : MatchEntry)]).reverse.take n).map
               (fun e : MatchEntry => MMEvent.replied e.identity
                  (successReply hostname port
                     (dbGetMulti st.db
                        (((st.match_requests ++ [(⟨identity, req, (token_hex 32 st.entropy).1⟩ : MatchEntry)]).reverse.take n).map
                           (fun e : MatchEntry => e.request.username)))
                     e)) := by
  obtain ⟨db0, dq0, ports0, limit0, ent0, evs0⟩ := st
  simp only at hsem hports hfull ⊢
  subst hsem
  subst hports
  have hlen : n ≤ (dq0 ++ [(⟨identity, req, (token_hex 32 ent0).1⟩ : MatchEntry)]).length := by
    simpa using hfull
  have hmain : enqueueAndMatch hostname n ⟨db0, dq0, port :: rest, m + 1, ent0, evs0⟩ identity req =
      some ⟨db0,
            ((dq0 ++ [(⟨identity, req, (token_hex 32 ent0).1⟩ : MatchEntry)]).reverse.drop n).reverse,
            rest, m, (token_hex 32 ent0).2,
            evs0
              ++ [MMEvent.janitorStarted port
                    (((dq0 ++ [(⟨identity, req, (token_hex 32 ent0).1⟩ : MatchEntry)]).reverse.take n).map
                       (fun e : MatchEntry => e.request.username))
                    (((dq0 ++ [(⟨identity, req, (token_hex 32 ent0).1⟩ : MatchEntry)]).reverse.take n).map
                       (fun e : MatchEntry => e.token))]
              ++ ((dq0 ++ [(⟨identity, req, (token_hex 32 ent0).1⟩ : MatchEntry)]).reverse.take n).map
                   (fun e : MatchEntry => MMEvent.replied e.identity
                      (successReply hostname port
                         (dbGetMulti db0
                            (((dq0 ++ [(⟨identity, req, (token_hex 32 ent0).1⟩ : MatchEntry)]).reverse.take n).map
                               (fun e : MatchEntry => e.request.username)))
                         e))⟩ := by
    unfold enqueueAndMatch
    dsimp only
    rw [if_pos hlen, popN_eq]
  exact ⟨_, hmain, rfl, rfl, rfl, rfl⟩

/-- C1 amended witness: a concrete two-player cohort started from requests
u1 then u2. -/
theorem C1_cohort_lifo_witness :
    (⟨[], [⟨1, ⟨"u1", []⟩, "t1"⟩], [21450], 1, ⟨fun _ => 0, 0⟩, []⟩ : MMState).match_limit = 0 + 1
    ∧ (⟨[], [⟨1, ⟨"u1", []⟩, "t1"⟩], [21450], 1, ⟨fun _ => 0, 0⟩, []⟩ : MMState).ports_to_use
        = 21450 :: []
    ∧ 2 ≤ (⟨[], [⟨1, ⟨"u1", []⟩, "t1"⟩], [21450], 1, ⟨fun _ => 0, 0⟩, []⟩ : MMState).match_requests.length + 1
    ∧ (∃ st', enqueueAndMatch "localhost" 2
          (⟨[], [⟨1, ⟨"u1", []⟩, "t1"⟩], [21450], 1, ⟨fun _ => 0, 0⟩, []⟩ : MMState) 2 ⟨"u2", []⟩
          = some st'
      ∧ st'.match_requests =
          ((((⟨[], [⟨1, ⟨"u1", []⟩, "t1"⟩], [21450], 1, ⟨fun _ => 0, 0⟩, []⟩ : MMState).match_requests
              ++ [(⟨2, ⟨"u2", []⟩, (token_hex 32 (⟨[], [⟨1, ⟨"u1", []⟩, "t1"⟩], [21450], 1, ⟨fun _ => 0, 0⟩, []⟩ : MMState).entropy).1⟩ : MatchEntry)]).reverse.drop 2).reverse)
      ∧ st'.ports_to_use = []
      ∧ st'.match_limit = 0
      ∧ st'.events = (⟨[], [⟨1, ⟨"u1", []⟩, "t1"⟩], [21450], 1, ⟨fun _ => 0, 0⟩, []⟩ : MMState).events
          ++ [MMEvent.janitorStarted 21450
                ((((⟨[], [⟨1, ⟨"u1", []⟩, "t1"⟩], [21450], 1, ⟨fun _ => 0, 0⟩, []⟩ : MMState).match_requests
                    ++ [(⟨2, ⟨"u2", []⟩, (token_hex 32 (⟨[], [⟨1, ⟨"u1", []⟩, "t1"⟩], [21450], 1, ⟨fun _ => 0, 0⟩, []⟩ : MMState).entropy).1⟩ : MatchEntry)]).reverse.take 2).map
                   (fun e : MatchEntry => e.request.username))
                ((((⟨[], [⟨1, ⟨"u1", []⟩, "t1"⟩], [21450], 1, ⟨fun _ => 0, 0⟩, []⟩ : MMState).match_requests
                    ++ [(⟨2, ⟨"u2", []⟩, (token_hex 32 (⟨[], [⟨1, ⟨"u1", []⟩, "t1"⟩], [21450], 1, ⟨fun _ => 0, 0⟩, []⟩ : MMState).entropy).1⟩ : MatchEntry)]).reverse.take 2).map
                   (fun e : MatchEntry => e.token))]
          ++ (((⟨[], [⟨1, ⟨"u1", []⟩, "t1"⟩], [21450], 1, ⟨fun _ => 0, 0⟩, []⟩ : MMState).match_requests
                ++ [(⟨2, ⟨"u2", []⟩, (token_hex 32 (⟨[], [⟨1, ⟨"u1", []⟩, "t1"⟩], [21450], 1, ⟨fun _ => 0, 0⟩, []⟩ : MMState).entropy).1⟩ : MatchEntry)]).reverse.take 2).map
               (fun e : MatchEntry => MMEvent.replied e.identity
                  (successReply "localhost" 21450
                     (dbGetMulti (⟨[], [⟨1, ⟨"u1", []⟩, "t1"⟩], [21450], 1, ⟨fun _ => 0, 0⟩, []⟩ : MMState).db
                        ((((⟨[], [⟨1, ⟨"u1", []⟩, "t1"⟩], [21450], 1, ⟨fun _ => 0, 0⟩, []⟩ : MMState).match_requests
                            ++ [(⟨2, ⟨"u2", []⟩, (token_hex 32 (⟨[], [⟨1, ⟨"u1", []⟩, "t1"⟩], [21450], 1, ⟨fun _ => 0, 0⟩, []⟩ : MMState).entropy).1⟩ : MatchEntry)]).reverse.take 2).map
                           (fun e : MatchEntry => e.request.username)))
                     e))) :=
  ⟨rfl, rfl, by decide,
   C1_cohort_lifo "localhost" 2 ⟨[], [⟨1, ⟨"u1", []⟩, "t1"⟩], [21450], 1, ⟨fun _ => 0, 0⟩, []⟩
     2 ⟨"u2", []⟩ 0 21450 [] rfl rfl (by decide)⟩

/-- Looking up a different key is unaffected by `dbStore`. -/
theorem dbLookup_dbStore_ne (db : RankingDB) (u k : String) (r : UserRec)
    (h : k ≠ u) : dbLookup (dbStore db u r) k = dbLookup db k := by
  unfold dbLookup dbStore
  induction db with
  | nil => rfl
  | cons p t ih =>
    simp only [List.map]
    by_cases hp : p.1 = u
    · rw [if_pos hp]
      simp only [List.lookup]
      have hku : (k == u) = false := beq_eq_false_iff_ne.mpr h
      have hkp : (k == p.1) = false := by rw [hp]; exact hku
      rw [hku, hkp]
      exact ih
    · rw [if_neg hp]
      simp only [List.lookup]
      cases hkp : k == p.1
      · exact ih
      · rfl

/-- Appending a record keyed by a different username does not change lookup. -/
theorem lookup_append_single_ne (k u : String) (r : UserRec) (h : k ≠ u) :
    ∀ t : List (String × UserRec), List.lookup k (t ++ [(u, r)]) = List.lookup k t := by
  intro t
  induction t with
  | nil =>
    simp only [List.nil_append, List.lookup]
    rw [beq_eq_false_iff_ne.mpr h]
  | cons p t ih =>
    simp only [List.cons_append, List.lookup]
    cases hkp : k == p.1
    · exact ih
    · rfl

/-- Looking up a different key is unaffected by `dbSet`. -/
theorem dbLookup_dbSet_ne (db : RankingDB) (u k : String) (pw : List Nat)
    (h : k ≠ u) : dbLookup (dbSet db u pw) k = dbLookup db k := by
  unfold dbSet
  cases dbLookup db u with
  | none => exact lookup_append_single_ne k u _ h db
  | some r => rfl

/-- Looking up a different key is unaffected by `dbLogin`. -/
theorem dbLookup_dbLogin_ne (db : RankingDB) (u k : String) (pw : List Nat)
    (h : k ≠ u) : dbLookup (dbLogin db u pw).2 k = dbLookup db k := by
  unfold dbLogin
  cases hdl : dbLookup db u with
  | none => rfl
  | some r =>
    dsimp only
    by_cases hpw : r.password_hash ≠ pw
    · rw [if_pos hpw]
    · rw [if_neg hpw]
      by_cases hl : r.logged_in
      · rw [if_pos hl]
      · rw [if_neg hl]
        exact dbLookup_dbStore_ne db u k _ h

/-- Entries surviving `enqueueAndMatch` come from the old deque or carry the
processed request verbatim; the database is not touched by it. -/
theorem enqueueAndMatch_entries (hostname : String) (n : Nat) (st st' : MMState)
    (identity : Nat) (req : QuickMatchRequest)
    (h : enqueueAndMatch hostname n st identity req = some st') :
    (∀ e ∈ st'.match_requests, e ∈ st.match_requests ∨ e.request = req)
    ∧ st'.db = st.db := by
  unfold enqueueAndMatch at h
  by_cases hfull : n ≤ (st.match_requests ++ [(⟨identity, req, (token_hex 32 st.entropy).1⟩ : MatchEntry)]).length
  · rw [if_pos hfull] at h
    cases hm : st.match_limit with
    | zero => rw [hm] at h; cases h
    | succ m =>
      rw [hm] at h
      dsimp only at h
      cases hp : st.ports_to_use with
      | nil => rw [hp] at h; cases h
      | cons port rest =>
        rw [hp] at h
        dsimp only at h
        cases h
        constructor
        · intro e he
          simp only [popN_eq] at he
          have : e ∈ st.match_requests ++ [(⟨identity, req, (token_hex 32 st.entropy).1⟩ : MatchEntry)] := by
            have h1 := List.drop_subset n (st.match_requests ++ [(⟨identity, req, (token_hex 32 st.entropy).1⟩ : MatchEntry)]).reverse
            have h2 := h1 (List.mem_reverse.mp he)
            exact List.mem_reverse.mp h2
          rcases List.mem_append.mp this with hold | hnew
          · exact Or.inl hold
          · right
            rcases List.mem_singleton.mp hnew with rfl
            rfl
        · rfl
  · rw [if_neg hfull] at h
    cases h
    constructor
    · intro e he
      rcases List.mem_append.mp he with hold | hnew
      · exact Or.inl hold
      · right
        rcases List.mem_singleton.mp hnew with rfl
        rfl
    · rfl

/-- C2 counterexample: a request carrying the mixed-case username Alice is
enqueued and creates a user record under Alice verbatim — no record keyed by
the lowercase alice exists afterwards, so the matchmaker did not lowercase
before login, user creation or enqueueing. -/
theorem C2_counterexample :
    ¬ (((processRequest "localhost" 3 ⟨[], [], [], 1, ⟨fun _ => 0, 0⟩, []⟩ 0 ⟨"Alice", []⟩).map
          (fun st => (st.match_requests.map (fun e => e.request.username),
                      (dbLookup st.db "alice").isSome)))
        = some (["alice"], true))
    ∧ ((processRequest "localhost" 3 ⟨[], [], [], 1, ⟨fun _ => 0, 0⟩, []⟩ 0 ⟨"Alice", []⟩).map
          (fun st => (st.match_requests.map (fun e => e.request.username),
                      (dbLookup st.db "alice").isSome,
                      (dbLookup st.db "Alice").isSome)))
        = some (["Alice"], false, true) := by
  decide

/-- C2 amended: the matchmaker itself performs no lowercasing — every deque
entry it keeps carries the processed request verbatim and every user record
it creates or modifies is keyed by the request's username exactly as sent;
the lowercasing happens on the client side, where `request_game` lowercases
the username before hashing and sending. -/
theorem C2_lowercase_client_side (u p : String) :
    (request_game_message u p).username = u.toLower
    ∧ (request_game_message u p).password = hash_password u.toLower p
    ∧ ∀ (hostname : String) (n : Nat) (st st' : MMState) (identity : Nat)
        (req : QuickMatchRequest),
        processRequest hostname n st identity req = some st' →
        (∀ e ∈ st'.match_requests, e ∈ st.match_requests ∨ e.request = req)
        ∧ (∀ k, k ≠ req.username → dbLookup st'.db k = dbLookup st.db k) := by
  refine ⟨rfl, rfl, ?_⟩
  intro hostname n st st' identity req h
  unfold processRequest at h
  dsimp only at h
  cases hlog : (dbLogin st.db req.username req.password).1 with
  | NoUser =>
    rw [hlog] at h
    dsimp only at h
    have hem := enqueueAndMatch_entries _ _ _ _ _ _ h
    refine ⟨hem.1, fun k hk => ?_⟩
    rw [hem.2]
    dsimp only
    rw [dbLookup_dbLogin_ne _ _ _ _ hk, dbLookup_dbSet_ne _ _ _ _ hk,
        dbLookup_dbLogin_ne _ _ _ _ hk]
  | LoginDuplicate =>
    rw [hlog] at h
    dsimp only at h
    cases h
    refine ⟨fun e he => Or.inl he, fun k hk => ?_⟩
    dsimp only
    rw [dbLookup_dbLogin_ne _ _ _ _ hk]
  | LoginFail =>
    rw [hlog] at h
    dsimp only at h
    cases h
    refine ⟨fun e he => Or.inl he, fun k hk => ?_⟩
    dsimp only
    rw [dbLookup_dbLogin_ne _ _ _ _ hk]
  | Success =>
    rw [hlog] at h
    dsimp only at h
    have hem := enqueueAndMatch_entries _ _ _ _ _ _ h
    refine ⟨hem.1, fun k hk => ?_⟩
    rw [hem.2]
    dsimp only
    rw [dbLookup_dbLogin_ne _ _ _ _ hk]

/-- C2 amended witness: a concrete wrong-password request processed verbatim. -/
theorem C2_lowercase_client_side_witness :
    processRequest "localhost" 3
        ⟨[("bob", ⟨[1], 1000, false⟩)], [], [], 1, ⟨fun _ => 0, 0⟩, []⟩ 0 ⟨"bob", []⟩
      = some ⟨[("bob", ⟨[1], 1000, false⟩)], [], [], 1, ⟨fun _ => 0, 0⟩,
              [MMEvent.replied 0 (failWrongPasswordReply "bob")]⟩
    ∧ ((∀ e ∈ (⟨[("bob", ⟨[1], 1000, false⟩)], [], [], 1, ⟨fun _ => 0, 0⟩,
              [MMEvent.replied 0 (failWrongPasswordReply "bob")]⟩ : MMState).match_requests,
          e ∈ (⟨[("bob", ⟨[1], 1000, false⟩)], [], [], 1, ⟨fun _ => 0, 0⟩, []⟩ : MMState).match_requests
          ∨ e.request = (⟨"bob", []⟩ : QuickMatchRequest))
      ∧ (∀ k, k ≠ (⟨"bob", []⟩ : QuickMatchRequest).username →
          dbLookup (⟨[("bob", ⟨[1], 1000, false⟩)], [], [], 1, ⟨fun _ => 0, 0⟩,
              [MMEvent.replied 0 (failWrongPasswordReply "bob")]⟩ : MMState).db k
            = dbLookup (⟨[("bob", ⟨[1], 1000, false⟩)], [], [], 1, ⟨fun _ => 0, 0⟩, []⟩ : MMState).db k)) :=
  ⟨rfl, (C2_lowercase_client_side "A" "p").2.2 "localhost" 3
     ⟨[("bob", ⟨[1], 1000, false⟩)], [], [], 1, ⟨fun _ => 0, 0⟩, []⟩
     ⟨[("bob", ⟨[1], 1000, false⟩)], [], [], 1, ⟨fun _ => 0, 0⟩,
      [MMEvent.replied 0 (failWrongPasswordReply "bob")]⟩ 0 ⟨"bob", []⟩ rfl⟩

/-- A hex digit character for a value below 16 is a hex character. -/
theorem hexDigit_mem (n : Nat) (h : n < 16) :
    hexDigit n ∈ "0123456789abcdef".data := by
  interval_cases n <;> decide

/-- The length of the hex encoding is twice the byte count. -/
theorem hexOfBytes_length (bs : List Nat) :
    (hexOfBytes bs).length = 2 * bs.length := by
  unfold hexOfBytes
  show (bs.flatMap fun b => [hexDigit (b / 16), hexDigit (b % 16)]).length = 2 * bs.length
  induction bs with
  | nil => rfl
  | cons b t ih =>
    simp only [List.flatMap_cons, List.length_append, List.length_cons, List.length_nil] at ih ⊢
    omega

/-- Every character of the hex encoding of genuine bytes is a hex character. -/
theorem hexOfBytes_chars (bs : List Nat) (hb : ∀ b ∈ bs, b < 256) :
    ∀ c ∈ (hexOfBytes bs).data, c ∈ "0123456789abcdef".data := by
  unfold hexOfBytes
  show ∀ c ∈ bs.flatMap fun b => [hexDigit (b / 16), hexDigit (b % 16)], c ∈ "0123456789abcdef".data
  induction bs with
  | nil => intro c hc; cases hc
  | cons b t ih =>
    intro c hc
    simp only [List.flatMap_cons, List.mem_append] at hc
    rcases hc with hc | hc
    · have hb256 : b < 256 := hb b (List.mem_cons_self b t)
      simp only [List.mem_cons, List.not_mem_nil, or_false] at hc
      rcases hc with rfl | rfl
      · exact hexDigit_mem _ (by omega)
      · exact hexDigit_mem _ (Nat.mod_lt _ (by omega))
    · exact ih (fun x hx => hb x (List.mem_cons_of_mem b hx)) c hc

/-- Tokens drawn by `token_hex 32` are well formed: 64 hex characters. -/
theorem token_hex_wf (e : Entropy) : tokenWF (token_hex 32 e).1 := by
  constructor
  · show ((hexOfBytes _).length) = 64
    rw [hexOfBytes_length]
    simp
  · intro c hc
    refine hexOfBytes_chars _ ?_ c hc
    intro b hb
    simp only [List.mem_map] at hb
    obtain ⟨i, _, rfl⟩ := hb
    exact Nat.mod_lt _ (by omega)

/-- Token bookkeeping of the enqueue-and-match step: the appended entry draws
32 fresh bytes from the entropy cursor, every entry kept in the deque has a
64-hex-character token, and every reply event added is a success reply to a
cohort member carrying that member's own token as the auth key. -/
theorem enqueueAndMatch_token_spec (hostname : String) (n : Nat) (st : MMState)
    (identity : Nat) (req : QuickMatchRequest)
    (hsem : st.match_limit ≠ 0) (hports : st.ports_to_use ≠ [])
    (hinv : ∀ e ∈ st.match_requests, tokenWF e.token) :
    ∃ st', enqueueAndMatch hostname n st identity req = some st'
      ∧ st'.entropy.pos = st.entropy.pos + 32
      ∧ (∀ e ∈ st'.match_requests, tokenWF e.token)
      ∧ (∀ ev ∈ st'.events, ev ∈ st.events
          ∨ (∃ port usernames whitelist, ev = MMEvent.janitorStarted port usernames whitelist)
          ∨ (∃ e r, (e ∈ st.match_requests
                     ∨ e = (⟨identity, req, (token_hex 32 st.entropy).1⟩ : MatchEntry))
              ∧ ev = MMEvent.replied e.identity r
              ∧ r.auth_key = e.token ∧ r.response = "" ∧ tokenWF r.auth_key)) := by
  have hdq : ∀ e ∈ st.match_requests ++ [(⟨identity, req, (token_hex 32 st.entropy).1⟩ : MatchEntry)],
      tokenWF e.token := by
    intro e he
    rcases List.mem_append.mp he with h1 | h2
    · exact hinv e h1
    · rcases List.mem_singleton.mp h2 with rfl
      exact token_hex_wf st.entropy
  have hmemdq : ∀ e ∈ ((st.match_requests
        ++ [(⟨identity, req, (token_hex 32 st.entropy).1⟩ : MatchEntry)]).reverse.take n),
      e ∈ st.match_requests ∨ e = (⟨identity, req, (token_hex 32 st.entropy).1⟩ : MatchEntry) := by
    intro e he
    have h1 := List.take_subset n _ he
    have h2 := List.mem_reverse.mp h1
    rcases List.mem_append.mp h2 with hold | hnew
    · exact Or.inl hold
    · exact Or.inr (List.mem_singleton.mp hnew)
  unfold enqueueAndMatch
  dsimp only
  by_cases hfull : n ≤ (st.match_requests
      ++ [(⟨identity, req, (token_hex 32 st.entropy).1⟩ : MatchEntry)]).length
  · rw [if_pos hfull]
    cases hm : st.match_limit with
    | zero => exact absurd hm hsem
    | succ m =>
      cases hp : st.ports_to_use with
      | nil => exact absurd hp hports
      | cons port rest =>
        dsimp only
        refine ⟨_, rfl, rfl, ?_, ?_⟩
        · intro e he
          simp only [popN_eq] at he
          have h1 := List.drop_subset n _ (List.mem_reverse.mp he)
          exact hdq e (List.mem_reverse.mp h1)
        · intro ev hev
          simp only [popN_eq] at hev
          rcases List.mem_append.mp hev with hev1 | hmap
          · rcases List.mem_append.mp hev1 with hold | hjan
            · exact Or.inl hold
            · rcases List.mem_singleton.mp hjan with rfl
              exact Or.inr (Or.inl ⟨port, _, _, rfl⟩)
          · obtain ⟨e, he, rfl⟩ := List.mem_map.mp hmap
            refine Or.inr (Or.inr ⟨e, successReply hostname port _ e, hmemdq e he, rfl, rfl, rfl, ?_⟩)
            show tokenWF e.token
            rcases hmemdq e he with hold | rfl
            · exact hinv e hold
            · exact token_hex_wf st.entropy
  · rw [if_neg hfull]
    refine ⟨_, rfl, rfl, ?_, ?_⟩
    · intro e he
      exact hdq e he
    · intro ev hev
      exact Or.inl hev

/-- C9: a request that passes login (directly or after first-sight user
creation) is enqueued with a token drawn fresh from the entropy cursor at
enqueue time (the cursor advances by exactly 32 bytes), every token held in
the deque is a 64-hex-character string, and every reply event the iteration
adds is either the janitor start or a success reply to a cohort member whose
auth key is that member's own token. -/
theorem C9_fresh_hex_tokens (hostname : String) (n : Nat) (st : MMState)
    (identity : Nat) (req : QuickMatchRequest)
    (hlogin : (dbLogin st.db req.username req.password).1 = LoginResult.Success
              ∨ (dbLogin st.db req.username req.password).1 = LoginResult.NoUser)
    (hsem : st.match_limit ≠ 0) (hports : st.ports_to_use ≠ [])
    (hinv : ∀ e ∈ st.match_requests, tokenWF e.token) :
    ∃ st', processRequest hostname n st identity req = some st'
      ∧ st'.entropy.pos = st.entropy.pos + 32
      ∧ (∀ e ∈ st'.match_requests, tokenWF e.token)
      ∧ (∀ ev ∈ st'.events, ev ∈ st.events
          ∨ (∃ port usernames whitelist, ev = MMEvent.janitorStarted port usernames whitelist)
          ∨ (∃ e r, (e ∈ st.match_requests
                     ∨ e = (⟨identity, req, (token_hex 32 st.entropy).1⟩ : MatchEntry))
              ∧ ev = MMEvent.replied e.identity r
              ∧ r.auth_key = e.token ∧ r.response = "" ∧ tokenWF r.auth_key)) := by
  unfold processRequest
  dsimp only
  rcases hlogin with hlog | hlog
  · rw [hlog]
    exact enqueueAndMatch_token_spec hostname n
      { st with db := (dbLogin st.db req.username req.password).2 } identity req hsem hports hinv
  · rw [hlog]
    exact enqueueAndMatch_token_spec hostname n
      { st with db := (dbLogin (dbSet (dbLogin st.db req.username req.password).2
                         req.username req.password) req.username req.password).2 }
      identity req hsem hports hinv

/-- C9 witness: a single-player cohort from a fresh database. -/
theorem C9_fresh_hex_tokens_witness :
    ((dbLogin (⟨[], [], [21450], 1, ⟨fun _ => 0, 0⟩, []⟩ : MMState).db
        (⟨"alice", []⟩ : QuickMatchRequest).username
        (⟨"alice", []⟩ : QuickMatchRequest).password).1 = LoginResult.Success
      ∨ (dbLogin (⟨[], [], [21450], 1, ⟨fun _ => 0, 0⟩, []⟩ : MMState).db
        (⟨"alice", []⟩ : QuickMatchRequest).username
        (⟨"alice", []⟩ : QuickMatchRequest).password).1 = LoginResult.NoUser)
    ∧ (⟨[], [], [21450], 1, ⟨fun _ => 0, 0⟩, []⟩ : MMState).match_limit ≠ 0
    ∧ (⟨[], [], [21450], 1, ⟨fun _ => 0, 0⟩, []⟩ : MMState).ports_to_use ≠ []
    ∧ (∀ e ∈ (⟨[], [], [21450], 1, ⟨fun _ => 0, 0⟩, []⟩ : MMState).match_requests, tokenWF e.token)
    ∧ (∃ st', processRequest "localhost" 1 ⟨[], [], [21450], 1, ⟨fun _ => 0, 0⟩, []⟩ 5 ⟨"alice", []⟩
          = some st'
      ∧ st'.entropy.pos = (⟨[], [], [21450], 1, ⟨fun _ => 0, 0⟩, []⟩ : MMState).entropy.pos + 32
      ∧ (∀ e ∈ st'.match_requests, tokenWF e.token)
      ∧ (∀ ev ∈ st'.events, ev ∈ (⟨[], [], [21450], 1, ⟨fun _ => 0, 0⟩, []⟩ : MMState).events
          ∨ (∃ port usernames whitelist, ev = MMEvent.janitorStarted port usernames whitelist)
          ∨ (∃ e r, (e ∈ (⟨[], [], [21450], 1, ⟨fun _ => 0, 0⟩, []⟩ : MMState).match_requests
                     ∨ e = (⟨5, ⟨"alice", []⟩,
                            (token_hex 32 (⟨[], [], [21450], 1, ⟨fun _ => 0, 0⟩, []⟩ : MMState).entropy).1⟩ : MatchEntry))
              ∧ ev = MMEvent.replied e.identity r
              ∧ r.auth_key = e.token ∧ r.response = "" ∧ tokenWF r.auth_key))) :=
  ⟨Or.inr (by decide), by decide, by decide, by decide,
   C9_fresh_hex_tokens "localhost" 1 ⟨[], [], [21450], 1, ⟨fun _ => 0, 0⟩, []⟩ 5 ⟨"alice", []⟩
     (Or.inr (by decide)) (by decide) (by decide) (by decide)⟩
